import Mathlib

/-!
Verification development for a gateway service mediating between a chat
assistant and a remote store backend.  The definitions below are shallow
embeddings of the functions in `app.py`: Python dicts become association
lists with first-match lookup, network calls become explicit `Except`
inputs, clock reads become an explicit rational time parameter, and the
module-level mutable state (session table, cached admin token) is passed
and returned explicitly.
-/

namespace Gateway

/-! ## Python dict model

Association lists with unique keys reachable by construction.  `dictGet`
is `d.get(k)`, `dictInsert` is `d[k] = v`, `dictErase` is `d.pop(k, None)`,
`dictAppendAt` is `d.setdefault(k, []).append(v)`. -/

def dictGet {κ α : Type} [DecidableEq κ] : List (κ × α) → κ → Option α
  | [], _ => none
  | p :: rest, k => if p.1 = k then some p.2 else dictGet rest k

def dictInsert {κ α : Type} [DecidableEq κ] : List (κ × α) → κ → α → List (κ × α)
  | [], k, v => [(k, v)]
  | p :: rest, k, v => if p.1 = k then (k, v) :: rest else p :: dictInsert rest k v

def dictErase {κ α : Type} [DecidableEq κ] : List (κ × α) → κ → List (κ × α)
  | [], _ => []
  | p :: rest, k => if p.1 = k then rest else p :: dictErase rest k

def dictAppendAt {κ α : Type} [DecidableEq κ] : List (κ × List α) → κ → α → List (κ × List α)
  | [], k, v => [(k, [v])]
  | p :: rest, k, v => if p.1 = k then (p.1, p.2 ++ [v]) :: rest else p :: dictAppendAt rest k v

def dictKeys {κ α : Type} (d : List (κ × α)) : List κ := d.map Prod.fst

theorem dictGet_insert_self {κ α : Type} [DecidableEq κ] (d : List (κ × α)) (k : κ) (v : α) :
    dictGet (dictInsert d k v) k = some v := by
  induction d with
  | nil => simp [dictInsert, dictGet]
  | cons p rest ih =>
    by_cases h : p.1 = k
    · simp [dictInsert, dictGet, h]
    · simp [dictInsert, dictGet, h, ih]

theorem dictGet_insert_ne {κ α : Type} [DecidableEq κ] (d : List (κ × α)) (k k' : κ) (v : α)
    (h : k' ≠ k) : dictGet (dictInsert d k v) k' = dictGet d k' := by
  induction d with
  | nil => simp [dictInsert, dictGet, Ne.symm h]
  | cons p rest ih =>
    by_cases hp : p.1 = k
    · subst hp
      simp [dictInsert, dictGet, Ne.symm h]
    · simp [dictInsert, dictGet, hp, ih]

theorem dictGet_erase_self {κ α : Type} [DecidableEq κ] (d : List (κ × α)) (k : κ)
    (hnd : (dictKeys d).Nodup) : dictGet (dictErase d k) k = none := by
  induction d with
  | nil => simp [dictErase, dictGet]
  | cons p rest ih =>
    simp only [dictKeys, List.map_cons, List.nodup_cons] at hnd
    by_cases h : p.1 = k
    · subst h
      cases hget : dictGet rest p.1 with
      | none => simp [dictErase, hget]
      | some v =>
        exfalso
        apply hnd.1
        clear ih hnd
        induction rest with
        | nil => simp [dictGet] at hget
        | cons q tail ih2 =>
          by_cases hq : q.1 = p.1
          · simp [hq]
          · simp only [dictGet, hq, if_false] at hget
            simp [ih2 hget]
    · simp [dictErase, dictGet, h, ih hnd.2]

theorem dictGet_appendAt_self {κ α : Type} [DecidableEq κ] (d : List (κ × List α)) (k : κ)
    (v : α) : dictGet (dictAppendAt d k v) k = some ((dictGet d k).getD [] ++ [v]) := by
  induction d with
  | nil => simp [dictAppendAt, dictGet]
  | cons p rest ih =>
    by_cases h : p.1 = k
    · simp [dictAppendAt, dictGet, h]
    · simp [dictAppendAt, dictGet, h, ih]

theorem dictGet_appendAt_ne {κ α : Type} [DecidableEq κ] (d : List (κ × List α)) (k k' : κ)
    (v : α) (h : k' ≠ k) : dictGet (dictAppendAt d k v) k' = dictGet d k' := by
  induction d with
  | nil => simp [dictAppendAt, dictGet, Ne.symm h]
  | cons p rest ih =>
    by_cases hp : p.1 = k
    · subst hp
      simp [dictAppendAt, dictGet, Ne.symm h]
    · simp [dictAppendAt, dictGet, hp, ih]

/-! ## Session store (`require_session_token`, app.py lines 138-148)

`SESSIONS` maps a session token to a record with `customer_id`,
`frontend_token` and `expires_at`.  `now()` is passed as the rational `t`;
`SESSION_TTL_SECONDS` is the parameter `ttl`. -/

structure Session where
  customer_id : Int
  frontend_token : String
  expires_at : ℚ
  deriving DecidableEq, Repr

inductive SessErr where
  | notFound   -- HTTP 401 "Invalid session"
  | expired    -- HTTP 401 "Session expired"
  deriving DecidableEq, Repr

abbrev SessStore := List (String × Session)

def require_session_token (ttl t : ℚ) (store : SessStore) (tok : String) :
    Except SessErr Session × SessStore :=
  match dictGet store tok with
  | none => (.error .notFound, store)
  | some sess =>
    if sess.expires_at < t then
      (.error .expired, dictErase store tok)
    else
      let sess' : Session := { sess with expires_at := t + ttl }
      (.ok sess', dictInsert store tok sess')

/-- Runs `require_session_token` at each time in the list, threading the
store; `true` iff every validation succeeds. -/
def validate_seq (ttl : ℚ) (store : SessStore) (tok : String) : List ℚ → Bool
  | [] => true
  | t :: ts =>
    match require_session_token ttl t store tok with
    | (.ok _, store') => validate_seq ttl store' tok ts
    | (.error _, _) => false

theorem validate_seq_of_chain (ttl : ℚ) (tok : String) :
    ∀ (times : List ℚ) (store : SessStore) (s : Session),
      dictGet store tok = some s →
      List.Chain (fun a b => a ≤ b ∧ b - a < ttl) (s.expires_at - ttl) times →
      validate_seq ttl store tok times = true := by
  intro times
  induction times with
  | nil => intro store s _ _; rfl
  | cons t1 ts ih =>
    intro store s hget hchain
    cases hchain with
    | cons hab hrest =>
      have hvalid : ¬ s.expires_at < t1 := by
        have := hab.2
        intro hc
        linarith
      simp only [validate_seq, require_session_token, hget, if_neg hvalid]
      apply ih (dictInsert store tok { s with expires_at := t1 + ttl })
      · exact dictGet_insert_self store tok _
      · have : t1 + ttl - ttl = t1 := by ring
        simpa [this] using hrest

/-- C4: validating a session token fails with a not-found error and leaves the
store unchanged when the token is absent; fails with an expired error and
evicts the entry when the stored expiry has passed; otherwise extends the
expiry to now + TTL (sliding window) and returns the record, so repeated
validations at intervals shorter than TTL all succeed. -/
theorem C4_session_validate_and_touch (ttl t : ℚ) (store : SessStore) (tok : String) :
    (dictGet store tok = none →
      require_session_token ttl t store tok = (.error .notFound, store))
    ∧ (∀ s, dictGet store tok = some s → s.expires_at < t →
      require_session_token ttl t store tok = (.error .expired, dictErase store tok)
      ∧ ((dictKeys store).Nodup →
          dictGet (require_session_token ttl t store tok).2 tok = none))
    ∧ (∀ s, dictGet store tok = some s → t ≤ s.expires_at →
      require_session_token ttl t store tok =
        (.ok { s with expires_at := t + ttl },
         dictInsert store tok { s with expires_at := t + ttl }))
    ∧ (∀ (s : Session) (times : List ℚ), dictGet store tok = some s →
      List.Chain (fun a b => a ≤ b ∧ b - a < ttl) (s.expires_at - ttl) times →
      validate_seq ttl store tok times = true) := by
  refine ⟨?_, ?_, ?_, ?_⟩
  · intro hnone
    simp [require_session_token, hnone]
  · intro s hget hexp
    have hres : require_session_token ttl t store tok = (.error .expired, dictErase store tok) := by
      simp [require_session_token, hget, hexp]
    refine ⟨hres, ?_⟩
    intro hnd
    rw [hres]
    exact dictGet_erase_self store tok hnd
  · intro s hget hle
    have hnlt : ¬ s.expires_at < t := not_lt.mpr hle
    simp [require_session_token, hget, hnlt]
  · intro s times hget hchain
    exact validate_seq_of_chain ttl tok times store s hget hchain

/-- C4 witness: concrete instances of each branch of the session-validation
theorem, with the store and clock evaluated. -/
theorem C4_session_validate_and_touch_witness :
    require_session_token 10 95 [] "tk" = (.error .notFound, [])
    ∧ require_session_token 10 105 [("tk", ⟨7, "ft", 100⟩)] "tk" = (.error .expired, [])
    ∧ (require_session_token 10 95 [("tk", ⟨7, "ft", 100⟩)] "tk").1 = .ok ⟨7, "ft", 105⟩
    ∧ validate_seq 10 [("tk", ⟨7, "ft", 100⟩)] "tk" [95, 104, 113] = true := by
  refine ⟨?_, ?_, ?_, ?_⟩
  · exact (C4_session_validate_and_touch 10 95 [] "tk").1 (by decide)
  · have h := ((C4_session_validate_and_touch 10 105 [("tk", ⟨7, "ft", 100⟩)] "tk").2.1
      ⟨7, "ft", 100⟩ (by decide) (by norm_num)).1
    rw [h]
    rfl
  · have h := (C4_session_validate_and_touch 10 95 [("tk", ⟨7, "ft", 100⟩)] "tk").2.2.1
      ⟨7, "ft", 100⟩ (by decide) (by norm_num)
    rw [h]
    norm_num
  · refine (C4_session_validate_and_touch 10 95 [("tk", ⟨7, "ft", 100⟩)] "tk").2.2.2
      ⟨7, "ft", 100⟩ [95, 104, 113] (by decide) ?_
    refine List.Chain.cons ⟨by norm_num, by norm_num⟩ ?_
    refine List.Chain.cons ⟨by norm_num, by norm_num⟩ ?_
    exact List.Chain.cons ⟨by norm_num, by norm_num⟩ List.Chain.nil

/-! ## Admin token cache (`get_admin_token`, app.py lines 295-329)

The module globals `ADMIN_TOKEN : Optional[str]` and
`ADMIN_TOKEN_EXPIRES_AT : float` become `AdminState`; the body runs under
`ADMIN_TOKEN_LOCK`, so one call is modelled as one atomic state
transition.  The upstream POST to the backend token path becomes the
`resp` argument; the third component of the result records whether that
upstream call was made. -/

structure AdminState where
  token : Option String
  expires_at : ℚ
  deriving DecidableEq, Repr

structure TokenResp where
  token : Option String
  expires_in : Option Int
  deriving DecidableEq, Repr

inductive AdminErr where
  | config     -- HTTP 500 "Missing NC_ADMIN_EMAIL / NC_ADMIN_PASSWORD"
  | upstream   -- nc_post_json raised (HTTP 502)
  | parse      -- HTTP 502 "Could not parse admin token"
  deriving DecidableEq, Repr

/-- Python truthiness of an optional string: `None` and `""` are falsy. -/
def strTruthy : Option String → Bool
  | none => false
  | some s => s ≠ ""

def acquire_admin_token (st : AdminState) (t : ℚ) (email password : String)
    (resp : Except Unit TokenResp) : Except AdminErr String × AdminState × Bool :=
  if email = "" ∨ password = "" then (.error .config, st, false)
  else
    match resp with
    | .error _ => (.error .upstream, st, true)
    | .ok d =>
      let expires_in := d.expires_in.getD 3600
      if strTruthy d.token then
        (.ok (d.token.getD ""), ⟨d.token, t + ((max 60 expires_in : ℤ) : ℚ)⟩, true)
      else
        (.error .parse, st, true)

def get_admin_token (st : AdminState) (t : ℚ) (email password : String)
    (resp : Except Unit TokenResp) : Except AdminErr String × AdminState × Bool :=
  match st.token with
  | some tok =>
    if tok ≠ "" ∧ t + 10 < st.expires_at then (.ok tok, st, false)
    else acquire_admin_token st t email password resp
  | none => acquire_admin_token st t email password resp

/-- C5: the admin-token getter returns a cached nonempty token unchanged and
without an upstream call while its expiry is more than 10 seconds away;
otherwise it fails with a configuration error before any upstream call when
credentials are missing; on a fresh acquisition the cached expiry becomes
now + max(60, upstream-declared ttl); and when the upstream response carries
no usable token it fails with a parse error leaving the cache unchanged. -/
theorem C5_admin_token_cache (st : AdminState) (t : ℚ) (email password : String)
    (resp : Except Unit TokenResp) :
    (∀ tok, st.token = some tok → tok ≠ "" → t + 10 < st.expires_at →
      get_admin_token st t email password resp = (.ok tok, st, false))
    ∧ ((st.token = none ∨ ∀ tok, st.token = some tok → tok = "" ∨ st.expires_at ≤ t + 10) →
      ((email = "" ∨ password = "") →
        get_admin_token st t email password resp = (.error .config, st, false))
      ∧ (email ≠ "" → password ≠ "" → ∀ d, resp = .ok d →
        (∀ tok, d.token = some tok → tok ≠ "" →
          get_admin_token st t email password resp =
            (.ok tok, ⟨some tok, t + ((max 60 (d.expires_in.getD 3600) : ℤ) : ℚ)⟩, true))
        ∧ ((d.token = none ∨ d.token = some "") →
          get_admin_token st t email password resp = (.error .parse, st, true)))) := by
  constructor
  · intro tok htok hne hfresh
    simp [get_admin_token, htok, hne, hfresh]
  · intro hstale
    have hacq : get_admin_token st t email password resp =
        acquire_admin_token st t email password resp := by
      cases hst : st.token with
      | none => simp [get_admin_token, hst]
      | some tok =>
        rcases hstale with h | h
        · rw [hst] at h; cases h
        · rcases h tok hst with he | hle
          · simp [get_admin_token, hst, he]
          · have : ¬ (tok ≠ "" ∧ t + 10 < st.expires_at) := by
              rintro ⟨-, hlt⟩
              exact absurd hle (not_le.mpr hlt)
            simp [get_admin_token, hst, this]
    constructor
    · intro hcred
      rw [hacq]
      simp [acquire_admin_token, hcred]
    · intro hem hpw d hresp
      have hcred : ¬ (email = "" ∨ password = "") := by
        rintro (h | h)
        · exact hem h
        · exact hpw h
      constructor
      · intro tok htok hne
        rw [hacq]
        simp [acquire_admin_token, hcred, hresp, strTruthy, htok, hne]
      · intro hbad
        rw [hacq]
        rcases hbad with h | h <;> simp [acquire_admin_token, hcred, hresp, strTruthy, h]

/-- C5 witness: concrete instances of each branch of the admin-token theorem. -/
theorem C5_admin_token_cache_witness :
    get_admin_token ⟨some "cached", 100⟩ 50 "e" "p" (.ok ⟨some "fresh", some 30⟩)
      = (.ok "cached", ⟨some "cached", 100⟩, false)
    ∧ get_admin_token ⟨none, 0⟩ 50 "" "p" (.ok ⟨some "fresh", some 30⟩)
      = (.error .config, ⟨none, 0⟩, false)
    ∧ get_admin_token ⟨none, 0⟩ 50 "e" "p" (.ok ⟨some "fresh", some 30⟩)
      = (.ok "fresh", ⟨some "fresh", 110⟩, true)
    ∧ get_admin_token ⟨some "old", 55⟩ 50 "e" "p" (.ok ⟨none, some 30⟩)
      = (.error .parse, ⟨some "old", 55⟩, true) := by
  refine ⟨?_, ?_, ?_, ?_⟩
  · exact (C5_admin_token_cache ⟨some "cached", 100⟩ 50 "e" "p"
      (.ok ⟨some "fresh", some 30⟩)).1 "cached" rfl (by decide) (by norm_num)
  · exact ((C5_admin_token_cache ⟨none, 0⟩ 50 "" "p"
      (.ok ⟨some "fresh", some 30⟩)).2 (Or.inl rfl)).1 (Or.inl rfl)
  · have h := (((C5_admin_token_cache ⟨none, 0⟩ 50 "e" "p"
      (.ok ⟨some "fresh", some 30⟩)).2 (Or.inl rfl)).2 (by decide) (by decide)
      ⟨some "fresh", some 30⟩ rfl).1 "fresh" rfl (by decide)
    rw [h]
    norm_num
  · have hstale : ∀ (tok : String),
        (AdminState.mk (some "old") 55).token = some tok →
        tok = "" ∨ (AdminState.mk (some "old") 55).expires_at ≤ 50 + 10 := by
      intro tok htok
      right
      norm_num
    exact (((C5_admin_token_cache ⟨some "old", 55⟩ 50 "e" "p"
      (.ok ⟨none, some 30⟩)).2 (Or.inr hstale)).2 (by decide) (by decide)
      ⟨none, some 30⟩ rfl).2 (Or.inl rfl)

/-! ## Order fulfillment reconciliation
(`build_order_item_fulfillment_map`, app.py lines 398-420, and the
normalization loop of `vf_order_details`, lines 970-1003)

A hydrated shipment is the record produced by
`nc_get_hydrated_shipments_for_order`; its `items` carry the order item id
(possibly absent in the upstream JSON) and a quantity defaulted to 0. -/

structure HydratedLineItem where
  orderItemId : Option Int
  quantity : Nat
  deriving DecidableEq, Repr

structure HydratedShipment where
  shipmentId : Int
  trackingNumber : Option String
  shippedDate : Option String
  deliveryDate : Option String
  items : List HydratedLineItem
  deriving DecidableEq, Repr

structure FulfillmentEntry where
  shipmentId : Int
  quantity : Nat
  trackingNumber : Option String
  shippedDate : Option String
  deliveryDate : Option String
  deriving DecidableEq, Repr

def fulfillment_entry (s : HydratedShipment) (it : HydratedLineItem) : FulfillmentEntry :=
  ⟨s.shipmentId, it.quantity, s.trackingNumber, s.shippedDate, s.deliveryDate⟩

abbrev FulfillmentMap := List (Int × List FulfillmentEntry)

def add_shipment_items (s : HydratedShipment) (m : FulfillmentMap) : FulfillmentMap :=
  s.items.foldl (fun m it =>
    match it.orderItemId with
    | none => m
    | some oid => dictAppendAt m oid (fulfillment_entry s it)) m

def build_order_item_fulfillment_map (hydrated : List HydratedShipment) : FulfillmentMap :=
  hydrated.foldl (fun m s => add_shipment_items s m) []

/-- Lookup with default, `fulfillment_map.get(order_item_id, [])`. -/
def fmapGetD (m : FulfillmentMap) (oid : Option Int) : List FulfillmentEntry :=
  match oid with
  | none => []
  | some k => (dictGet m k).getD []

/-- Python truthiness of the `deliveryDate` field: `None` and `""` are falsy. -/
def truthyDate : Option String → Bool
  | none => false
  | some s => s ≠ ""

structure FrontOrderItem where
  id : Option Int
  quantity : Nat
  deriving DecidableEq, Repr

structure NormalizedLine where
  orderItemId : Option Int
  orderedQty : Nat
  shippedQty : Nat
  status : String
  shipments : List FulfillmentEntry
  deriving DecidableEq, Repr

/-- Normalization of one order line in `vf_order_details` (app.py 970-1003). -/
def normalize_order_item (fmap : FulfillmentMap) (item : FrontOrderItem) : NormalizedLine :=
  let shipments := fmapGetD fmap item.id
  let shippedQty := (shipments.map (fun s => s.quantity)).sum
  let status :=
    if shippedQty = 0 then "unshipped"
    else if shippedQty < item.quantity then "partially_shipped"
    else if shipments ≠ [] ∧ shipments.all (fun s => truthyDate s.deliveryDate) then "delivered"
    else "shipped"
  ⟨item.id, item.quantity, shippedQty, status, shipments⟩

/-- Modelled from the words of the spec (section 4.5 status derivation), for
comparison with the code: unshipped when shipped = 0, partially shipped when
0 < shipped < ordered, delivered when shipped is at least ordered and every
contributing shipment has a delivery timestamp, shipped otherwise. -/
def spec_line_status (orderedQty : Nat) (shipments : List FulfillmentEntry) : String :=
  let shippedQty := (shipments.map (fun s => s.quantity)).sum
  if shippedQty = 0 then "unshipped"
  else if shippedQty < orderedQty then "partially_shipped"
  else if shipments.all (fun s => truthyDate s.deliveryDate) then "delivered"
  else "shipped"

theorem fmapGetD_add_shipment_items (s : HydratedShipment) (oid : Int) :
    ∀ m : FulfillmentMap,
      fmapGetD (add_shipment_items s m) (some oid) =
        fmapGetD m (some oid) ++
          (s.items.filter (fun it => it.orderItemId = some oid)).map (fulfillment_entry s) := by
  unfold add_shipment_items
  induction s.items with
  | nil => intro m; simp
  | cons it rest ih =>
    intro m
    cases hit : it.orderItemId with
    | none =>
      have hne : ¬ it.orderItemId = some oid := by simp [hit]
      simp only [List.foldl_cons, hit, List.filter_cons, hne, decide_eq_true_eq, ite_false]
      simpa [hit] using ih m
    | some k =>
      by_cases hk : k = oid
      · subst hk
        have heq : it.orderItemId = some k := hit
        simp only [List.foldl_cons, hit, List.filter_cons, heq, decide_eq_true_eq, ite_true]
        rw [ih (dictAppendAt m k (fulfillment_entry s it))]
        simp [fmapGetD, dictGet_appendAt_self]
      · have hne : ¬ it.orderItemId = some oid := by simp [hit, hk]
        simp only [List.foldl_cons, hit, List.filter_cons, hne, decide_eq_true_eq, ite_false]
        rw [ih (dictAppendAt m k (fulfillment_entry s it))]
        simp [fmapGetD, hk, dictGet_appendAt_ne _ _ _ _ (fun h => hk h.symm)]

theorem fmapGetD_build (oid : Int) :
    ∀ (hydrated : List HydratedShipment) (m : FulfillmentMap),
      fmapGetD (hydrated.foldl (fun m s => add_shipment_items s m) m) (some oid) =
        fmapGetD m (some oid) ++
          (hydrated.map (fun s =>
            (s.items.filter (fun it => it.orderItemId = some oid)).map (fulfillment_entry s))).flatten := by
  intro hydrated
  induction hydrated with
  | nil => intro m; simp
  | cons s rest ih =>
    intro m
    simp only [List.foldl_cons, List.map_cons, List.flatten_cons]
    rw [ih (add_shipment_items s m), fmapGetD_add_shipment_items s oid m]
    simp [List.append_assoc]

theorem shipments_ne_nil_of_sum_ne_zero (l : List FulfillmentEntry)
    (h : (l.map (fun s => s.quantity)).sum ≠ 0) : l ≠ [] := by
  rintro rfl
  simp at h

/-- C1: for an order line with a given id, the normalized view computed by
the order-details reconciliation has shipped quantity equal to the sum of
shipment-line-item quantities referencing that line across all hydrated
shipments of the order, and its status agrees with the spec status
derivation; in particular an over-shipped line is never partially shipped. -/
theorem C1_fulfillment_status (hydrated : List HydratedShipment) (oid : Int) (orderedQty : Nat) :
    (normalize_order_item (build_order_item_fulfillment_map hydrated)
        ⟨some oid, orderedQty⟩).shippedQty
      = (hydrated.map (fun s =>
          ((s.items.filter (fun it => it.orderItemId = some oid)).map
            (fun it => it.quantity)).sum)).sum
    ∧ (normalize_order_item (build_order_item_fulfillment_map hydrated)
        ⟨some oid, orderedQty⟩).status
      = spec_line_status orderedQty
          (normalize_order_item (build_order_item_fulfillment_map hydrated)
            ⟨some oid, orderedQty⟩).shipments
    ∧ (orderedQty < (normalize_order_item (build_order_item_fulfillment_map hydrated)
          ⟨some oid, orderedQty⟩).shippedQty →
        (normalize_order_item (build_order_item_fulfillment_map hydrated)
          ⟨some oid, orderedQty⟩).status ≠ "partially_shipped") := by
  have hE : fmapGetD (build_order_item_fulfillment_map hydrated) (some oid) =
      (hydrated.map (fun s =>
        (s.items.filter (fun it => it.orderItemId = some oid)).map
          (fulfillment_entry s))).flatten := by
    simpa [build_order_item_fulfillment_map, fmapGetD, dictGet] using fmapGetD_build oid hydrated []
  refine ⟨?_, ?_, ?_⟩
  · simp only [normalize_order_item, hE]
    rw [List.map_flatten, List.sum_flatten]
    simp [List.map_map, Function.comp_def, fulfillment_entry]
  · simp only [normalize_order_item, spec_line_status]
    by_cases h0 : ((fmapGetD (build_order_item_fulfillment_map hydrated) (some oid)).map
        (fun s => s.quantity)).sum = 0
    · simp [h0]
    · by_cases hlt : ((fmapGetD (build_order_item_fulfillment_map hydrated) (some oid)).map
          (fun s => s.quantity)).sum < orderedQty
      · simp [h0, hlt]
      · have hne := shipments_ne_nil_of_sum_ne_zero _ h0
        simp [h0, hlt, hne]
  · intro hover
    simp only [normalize_order_item] at hover ⊢
    split_ifs with h1 h2 h3
    · decide
    · exact absurd hover (by omega)
    · decide
    · decide

/-- C1 witness: one shipment delivering 12 units of line 4 against an order
of 10: shipped quantity 12, status delivered, and in particular the
over-shipped line is not partially shipped. -/
theorem C1_fulfillment_status_witness :
    (normalize_order_item (build_order_item_fulfillment_map
        [⟨1, none, none, some "d1", [⟨some 4, 12⟩]⟩]) ⟨some 4, 10⟩).shippedQty = 12
    ∧ (normalize_order_item (build_order_item_fulfillment_map
        [⟨1, none, none, some "d1", [⟨some 4, 12⟩]⟩]) ⟨some 4, 10⟩).status = "delivered"
    ∧ (normalize_order_item (build_order_item_fulfillment_map
        [⟨1, none, none, some "d1", [⟨some 4, 12⟩]⟩]) ⟨some 4, 10⟩).status
        ≠ "partially_shipped" := by
  have h := C1_fulfillment_status [⟨1, none, none, some "d1", [⟨some 4, 12⟩]⟩] 4 10
  exact ⟨by decide, by decide, h.2.2 (by decide)⟩

/-! ## Pricing fan-out (`vf_prices`, app.py lines 745-776)

`asyncio.gather(*tasks, return_exceptions=True)` delivers one outcome per
product id, failures included, so the fan-out becomes a list of pairs
(product id, outcome); the loop that splits outcomes into the `prices` and
`errors` dicts is embedded as a fold.  A price is the optional
`final_price` field extracted by `get_final_price`. -/

abbrev PriceOutcome := Except String (Option ℚ)

def price_step (acc : List (String × Option ℚ) × List (String × String))
    (p : Int × PriceOutcome) : List (String × Option ℚ) × List (String × String) :=
  match p.2 with
  | .error e => (acc.1, dictInsert acc.2 (toString p.1) e)
  | .ok v => (dictInsert acc.1 (toString p.1) v, acc.2)

def vf_prices_collect (pairs : List (Int × PriceOutcome)) :
    List (String × Option ℚ) × List (String × String) :=
  pairs.foldl price_step ([], [])

theorem dictKeys_cons {κ α : Type} (p : κ × α) (l : List (κ × α)) :
    dictKeys (p :: l) = p.1 :: dictKeys l := rfl

theorem mem_dictKeys_insert {κ α : Type} [DecidableEq κ] (d : List (κ × α)) (k k' : κ) (v : α) :
    k' ∈ dictKeys (dictInsert d k v) ↔ k' ∈ dictKeys d ∨ k' = k := by
  induction d with
  | nil => simp [dictInsert, dictKeys]
  | cons p rest ih =>
    by_cases h : p.1 = k
    · subst h
      have he : dictInsert (p :: rest) p.1 v = (p.1, v) :: rest := by simp [dictInsert]
      rw [he, dictKeys_cons, dictKeys_cons]
      simp only [List.mem_cons]
      tauto
    · have he : dictInsert (p :: rest) k v = p :: dictInsert rest k v := by simp [dictInsert, h]
      rw [he, dictKeys_cons, dictKeys_cons]
      simp only [List.mem_cons]
      rw [ih]
      tauto

theorem vf_prices_keys_spec (pairs : List (Int × PriceOutcome)) :
    ∀ (acc : List (String × Option ℚ) × List (String × String)) (k : String),
      (k ∈ dictKeys (pairs.foldl price_step acc).1 ↔
        k ∈ dictKeys acc.1 ∨ ∃ pr ∈ pairs, (∃ v, pr.2 = Except.ok v) ∧ k = toString pr.1)
      ∧ (k ∈ dictKeys (pairs.foldl price_step acc).2 ↔
        k ∈ dictKeys acc.2 ∨ ∃ pr ∈ pairs, (∃ e, pr.2 = Except.error e) ∧ k = toString pr.1) := by
  induction pairs with
  | nil => intro acc k; simp
  | cons p rest ih =>
    intro acc k
    cases hout : p.2 with
    | ok v =>
      have hstep : price_step acc p = (dictInsert acc.1 (toString p.1) v, acc.2) := by
        simp [price_step, hout]
      simp only [List.foldl_cons, hstep]
      constructor
      · rw [(ih _ k).1, mem_dictKeys_insert]
        simp only [List.mem_cons]
        constructor
        · rintro ((hm | rfl) | ⟨pr, hpr, hex, rfl⟩)
          · exact Or.inl hm
          · exact Or.inr ⟨p, Or.inl rfl, ⟨v, hout⟩, rfl⟩
          · exact Or.inr ⟨pr, Or.inr hpr, hex, rfl⟩
        · rintro (hm | ⟨pr, hpr | hpr, hex, rfl⟩)
          · exact Or.inl (Or.inl hm)
          · subst hpr; exact Or.inl (Or.inr rfl)
          · exact Or.inr ⟨pr, hpr, hex, rfl⟩
      · rw [(ih _ k).2]
        simp only [List.mem_cons]
        constructor
        · rintro (hm | ⟨pr, hpr, hex, rfl⟩)
          · exact Or.inl hm
          · exact Or.inr ⟨pr, Or.inr hpr, hex, rfl⟩
        · rintro (hm | ⟨pr, hpr | hpr, ⟨e, he⟩, rfl⟩)
          · exact Or.inl hm
          · subst hpr; rw [hout] at he; cases he
          · exact Or.inr ⟨pr, hpr, ⟨e, he⟩, rfl⟩
    | error e =>
      have hstep : price_step acc p = (acc.1, dictInsert acc.2 (toString p.1) e) := by
        simp [price_step, hout]
      simp only [List.foldl_cons, hstep]
      constructor
      · rw [(ih _ k).1]
        simp only [List.mem_cons]
        constructor
        · rintro (hm | ⟨pr, hpr, hex, rfl⟩)
          · exact Or.inl hm
          · exact Or.inr ⟨pr, Or.inr hpr, hex, rfl⟩
        · rintro (hm | ⟨pr, hpr | hpr, ⟨v, hv⟩, rfl⟩)
          · exact Or.inl hm
          · subst hpr; rw [hout] at hv; cases hv
          · exact Or.inr ⟨pr, hpr, ⟨v, hv⟩, rfl⟩
      · rw [(ih _ k).2, mem_dictKeys_insert]
        simp only [List.mem_cons]
        constructor
        · rintro ((hm | rfl) | ⟨pr, hpr, hex, rfl⟩)
          · exact Or.inl hm
          · exact Or.inr ⟨p, Or.inl rfl, ⟨e, hout⟩, rfl⟩
          · exact Or.inr ⟨pr, Or.inr hpr, hex, rfl⟩
        · rintro (hm | ⟨pr, hpr | hpr, hex, rfl⟩)
          · exact Or.inl (Or.inl hm)
          · subst hpr; exact Or.inl (Or.inr rfl)
          · exact Or.inr ⟨pr, hpr, hex, rfl⟩

/-- C2 counterexample: with duplicated product id 1 where one lookup succeeds
and the other fails, the key "1" lands in both the prices dict and the errors
dict, so the two key sets are not disjoint. -/
theorem C2_counterexample :
    vf_prices_collect [(1, .ok (some 5)), (1, .error "boom")]
      = ([("1", some 5)], [("1", "boom")])
    ∧ "1" ∈ dictKeys (vf_prices_collect [(1, .ok (some 5)), (1, .error "boom")]).1
    ∧ "1" ∈ dictKeys (vf_prices_collect [(1, .ok (some 5)), (1, .error "boom")]).2 := by
  refine ⟨?_, ?_, ?_⟩ <;> decide

/-- C2 (amended): for a fan-out over 1 to 20 product ids, every input id
receives an entry regardless of the other outcomes (no failure aborts the
rest) and every key of either dict comes from an input id — both
unconditionally, duplicate ids included; and when the input ids are pairwise
distinct the prices and errors key sets are additionally disjoint, so they
partition the rendered input id set exactly. -/
theorem C2_prices_errors_partition (pairs : List (Int × PriceOutcome))
    (_hlen : 1 ≤ pairs.length ∧ pairs.length ≤ 20) :
    (∀ pr ∈ pairs, toString pr.1 ∈ dictKeys (vf_prices_collect pairs).1
        ∨ toString pr.1 ∈ dictKeys (vf_prices_collect pairs).2)
    ∧ (∀ k, (k ∈ dictKeys (vf_prices_collect pairs).1 ∨
        k ∈ dictKeys (vf_prices_collect pairs).2) → ∃ pr ∈ pairs, k = toString pr.1)
    ∧ ((pairs.map (fun pr => toString pr.1)).Nodup →
        ∀ k, k ∈ dictKeys (vf_prices_collect pairs).1 →
          k ∉ dictKeys (vf_prices_collect pairs).2) := by
  have hkeys := vf_prices_keys_spec pairs ([], [])
  refine ⟨?_, ?_, ?_⟩
  · intro pr hpr
    cases hout : pr.2 with
    | ok v =>
      exact Or.inl ((hkeys (toString pr.1)).1.mpr (Or.inr ⟨pr, hpr, ⟨v, hout⟩, rfl⟩))
    | error e =>
      exact Or.inr ((hkeys (toString pr.1)).2.mpr (Or.inr ⟨pr, hpr, ⟨e, hout⟩, rfl⟩))
  · intro k hk
    rcases hk with hk | hk
    · rcases (hkeys k).1.mp hk with hm | ⟨pr, hpr, _, rfl⟩
      · simp [dictKeys] at hm
      · exact ⟨pr, hpr, rfl⟩
    · rcases (hkeys k).2.mp hk with hm | ⟨pr, hpr, _, rfl⟩
      · simp [dictKeys] at hm
      · exact ⟨pr, hpr, rfl⟩
  · intro hnd k hkp hke
    rcases (hkeys k).1.mp hkp with hm | ⟨pr, hpr, ⟨v, hv⟩, rfl⟩
    · simp [dictKeys] at hm
    rcases (hkeys (toString pr.1)).2.mp hke with hm | ⟨pr2, hpr2, ⟨e, he⟩, heq⟩
    · simp [dictKeys] at hm
    have : pr2 = pr := List.inj_on_of_nodup_map hnd hpr2 hpr heq.symm
    subst this
    rw [hv] at he
    cases he

/-- C2 witness: the amended theorem applied to a distinct-id fan-out where
id 2 fails and id 1 succeeds (coverage and disjointness), and to the
duplicate-id fan-out of the counterexample shape (coverage still holds). -/
theorem C2_prices_errors_partition_witness :
    (∀ pr ∈ [((1 : Int), (Except.ok (some 5) : PriceOutcome)), (2, .error "down")],
      toString pr.1 ∈ dictKeys
        (vf_prices_collect [(1, .ok (some 5)), (2, .error "down")]).1
      ∨ toString pr.1 ∈ dictKeys
        (vf_prices_collect [(1, .ok (some 5)), (2, .error "down")]).2)
    ∧ (∀ k, k ∈ dictKeys (vf_prices_collect [(1, .ok (some 5)), (2, .error "down")]).1 →
        k ∉ dictKeys (vf_prices_collect [(1, .ok (some 5)), (2, .error "down")]).2)
    ∧ (∀ pr ∈ [((1 : Int), (Except.ok (some 5) : PriceOutcome)), (1, .error "down")],
      toString pr.1 ∈ dictKeys
        (vf_prices_collect [(1, .ok (some 5)), (1, .error "down")]).1
      ∨ toString pr.1 ∈ dictKeys
        (vf_prices_collect [(1, .ok (some 5)), (1, .error "down")]).2) := by
  have h := C2_prices_errors_partition [(1, .ok (some 5)), (2, .error "down")] (by decide)
  have hdup := C2_prices_errors_partition [(1, .ok (some 5)), (1, .error "down")] (by decide)
  exact ⟨h.1, h.2.2 (by decide), hdup.1⟩

/-! ## Wishlist sync (`vf_wishlist_sync`, app.py lines 1226-1269;
`nc_get_wishlist`, lines 209-231; `nc_update_wishlist`, lines 573-599)

The three upstream interactions become `Except` inputs.  `nc_get_wishlist`
raises on any status of 400 or more, so its failure propagates;
`nc_update_wishlist` returns `None` both when there is nothing to add and
when the upstream rejects the call, so its outcome never propagates. -/

structure SyncResult where
  added : Nat
  skipped : Nat
  deriving DecidableEq, Repr

def nc_update_wishlist (product_ids : List Int) (resp : Except Unit Unit) : Option Unit :=
  if product_ids = [] then none
  else
    match resp with
    | .error _ => none   -- wishlist must never block cart flow
    | .ok _ => some ()

def vf_wishlist_sync (cartResp : Except Unit (List Int))
    (wishlistResp : Except Unit (List Int)) (bulkAddResp : Except Unit Unit) :
    Except Unit SyncResult :=
  match cartResp with
  | .error e => .error e
  | .ok cartItems =>
    let cart_products := cartItems.toFinset
    if cart_products = ∅ then .ok ⟨0, 0⟩
    else
      match wishlistResp with
      | .error e => .error e
      | .ok wlItems =>
        let wishlist_products := wlItems.toFinset
        let to_add := cart_products \ wishlist_products
        let _ := nc_update_wishlist to_add.toList bulkAddResp
        let added := to_add.card
        .ok ⟨added, cart_products.card - added⟩

/-- C3 counterexample: with a nonempty cart, a wishlist read failure makes the
whole sync request fail, and a swallowed bulk-add failure is reported with the
attempted count (here 1), not zero additions. -/
theorem C3_counterexample :
    vf_wishlist_sync (.ok [7]) (.error ()) (.ok ()) = .error ()
    ∧ vf_wishlist_sync (.ok [7]) (.ok []) (.error ()) = .ok ⟨1, 0⟩ := by
  constructor
  · have h7 : ([7] : List Int).toFinset ≠ ∅ := by decide
    simp [vf_wishlist_sync, h7]
  · have h7 : ([7] : List Int).toFinset ≠ ∅ := by decide
    simp [vf_wishlist_sync, h7]

/-- C3 (amended): with a valid session and successful cart and wishlist reads,
a bulk-add failure is swallowed: the result is the same as on bulk-add
success, and it reports the size of the computed difference as added (not
zero).  A wishlist read failure, however, is not swallowed: with a nonempty
cart it fails the request with the upstream error. -/
theorem C3_wishlist_sync_best_effort (cart wl : List Int) (b b2 : Except Unit Unit) :
    vf_wishlist_sync (.ok cart) (.ok wl) b = vf_wishlist_sync (.ok cart) (.ok wl) b2
    ∧ vf_wishlist_sync (.ok cart) (.ok wl) b =
        .ok ⟨(cart.toFinset \ wl.toFinset).card,
             cart.toFinset.card - (cart.toFinset \ wl.toFinset).card⟩
    ∧ (cart.toFinset ≠ ∅ → ∀ e, vf_wishlist_sync (.ok cart) (.error e) b = .error e) := by
  by_cases hc : cart.toFinset = ∅
  · refine ⟨rfl, ?_, fun hne => absurd hc hne⟩
    simp [vf_wishlist_sync, hc]
  · refine ⟨rfl, ?_, ?_⟩
    · simp [vf_wishlist_sync, hc]
    · intro _ e
      simp [vf_wishlist_sync, hc]

/-- C3 amended witness: concrete instance with cart {7}, wishlist {}, showing
the bulk-add outcome does not change the result and a read failure surfaces. -/
theorem C3_wishlist_sync_best_effort_witness :
    vf_wishlist_sync (.ok [7]) (.ok []) (.error ()) =
      vf_wishlist_sync (.ok [7]) (.ok []) (.ok ())
    ∧ vf_wishlist_sync (.ok [7]) (.ok []) (.error ()) = .ok ⟨1, 0⟩
    ∧ vf_wishlist_sync (.ok [7]) (.error ()) (.error ()) = .error () := by
  have h := C3_wishlist_sync_best_effort [7] [] (.error ()) (.ok ())
  refine ⟨h.1, ?_, h.2.2 (by decide) ()⟩
  have h2 := h.2.1
  have hcard : (([7] : List Int).toFinset \ ([] : List Int).toFinset).card = 1 := by decide
  have hcard2 : ([7] : List Int).toFinset.card = 1 := by decide
  rw [h2, hcard, hcard2]

/-- C9: a second sync run over an unchanged cart, against any wishlist state
containing what the first successful run left there (the old wishlist plus the
added difference), computes an empty difference and reports zero additions. -/
theorem C9_wishlist_sync_idempotent (cart wl1 wl2 : List Int) (b2 : Except Unit Unit)
    (hgrow : wl1.toFinset ∪ (cart.toFinset \ wl1.toFinset) ⊆ wl2.toFinset) :
    vf_wishlist_sync (.ok cart) (.ok wl2) b2 = .ok ⟨0, cart.toFinset.card⟩ := by
  by_cases hc : cart.toFinset = ∅
  · simp [vf_wishlist_sync, hc]
  · have hsub : cart.toFinset ⊆ wl2.toFinset := by
      intro a ha
      apply hgrow
      by_cases hw : a ∈ wl1.toFinset
      · exact Finset.mem_union_left _ hw
      · exact Finset.mem_union_right _ (Finset.mem_sdiff.mpr ⟨ha, hw⟩)
    have hdiff : cart.toFinset \ wl2.toFinset = ∅ := Finset.sdiff_eq_empty_iff_subset.mpr hsub
    simp [vf_wishlist_sync, hc, hdiff]

/-- C9 witness: second run with cart {3,4}, first-run wishlist {3}, second-run
wishlist {3,4}, yielding zero additions. -/
theorem C9_wishlist_sync_idempotent_witness :
    vf_wishlist_sync (.ok [3, 4]) (.ok [3, 4]) (.ok ()) = .ok ⟨0, 2⟩ := by
  have h := C9_wishlist_sync_idempotent [3, 4] [3] [3, 4] (.ok ()) (by decide)
  have hcard : ([3, 4] : List Int).toFinset.card = 2 := by decide
  rw [h, hcard]

/-! ## Cart update (`build_updatecart_payload`, app.py lines 235-247, and
`vf_cart_update`, lines 1117-1156)

The payload dict is keyed by `"itemquantity{cid}"` strings; the loop also
collects the id list joined into `updatecartitemids`.  `vf_cart_update`
reads the remote cart, takes `body.items[0]` only, and wraps everything in
a try/except that converts any exception (including the IndexError on an
empty items list) into a server error. -/

structure CartLine where
  cartItemId : Int
  quantity : Int
  deriving DecidableEq, Repr

structure CartUpdateItem where
  cartItemId : Int
  quantity : Int
  deriving DecidableEq, Repr

def build_updatecart_payload (cart_items : List CartLine) (target_id new_qty : Int) :
    List (String × String) :=
  let acc := cart_items.foldl (fun (acc : List (String × String) × List String) item =>
    let qty := if item.cartItemId = target_id then new_qty else item.quantity
    (dictInsert acc.1 ("itemquantity" ++ toString item.cartItemId) (toString qty),
     acc.2 ++ [toString item.cartItemId])) ([], [])
  dictInsert (dictInsert acc.1 "updatecartitemids" (String.intercalate "," acc.2))
    "removefromcart" ""

def vf_cart_update (cart_items : List CartLine) (body_items : List CartUpdateItem) :
    Except Unit (List (String × String)) :=
  match body_items with
  | [] => .error ()   -- IndexError from body.items[0], caught, surfaced as HTTP 500
  | target :: _ => .ok (build_updatecart_payload cart_items target.cartItemId target.quantity)

theorem itemquantity_key_ne_control (x : String) :
    "itemquantity" ++ x ≠ "updatecartitemids" ∧ "itemquantity" ++ x ≠ "removefromcart" := by
  constructor
  · intro h
    have hd := congrArg String.data h
    rw [String.data_append] at hd
    have h1 : "itemquantity".data = ['i', 't', 'e', 'm', 'q', 'u', 'a', 'n', 't', 'i', 't', 'y'] := rfl
    have h2 : "updatecartitemids".data =
        ['u', 'p', 'd', 'a', 't', 'e', 'c', 'a', 'r', 't', 'i', 't', 'e', 'm', 'i', 'd', 's'] := rfl
    rw [h1, h2] at hd
    simp at hd
  · intro h
    have hd := congrArg String.data h
    rw [String.data_append] at hd
    have h1 : "itemquantity".data = ['i', 't', 'e', 'm', 'q', 'u', 'a', 'n', 't', 'i', 't', 'y'] := rfl
    have h2 : "removefromcart".data =
        ['r', 'e', 'm', 'o', 'v', 'e', 'f', 'r', 'o', 'm', 'c', 'a', 'r', 't'] := rfl
    rw [h1, h2] at hd
    simp at hd

theorem payload_fold_get_preserve (target_id new_qty : Int) :
    ∀ (items : List CartLine) (acc : List (String × String) × List String) (k : String),
      (∀ i ∈ items, "itemquantity" ++ toString i.cartItemId ≠ k) →
      dictGet (items.foldl (fun (acc : List (String × String) × List String) item =>
        (dictInsert acc.1 ("itemquantity" ++ toString item.cartItemId)
          (toString (if item.cartItemId = target_id then new_qty else item.quantity)),
         acc.2 ++ [toString item.cartItemId])) acc).1 k = dictGet acc.1 k := by
  intro items
  induction items with
  | nil => intro acc k _; rfl
  | cons j rest ih =>
    intro acc k hfresh
    simp only [List.foldl_cons]
    rw [ih _ k (fun i hi => hfresh i (List.mem_cons_of_mem j hi))]
    exact dictGet_insert_ne _ _ _ _ (fun hk => hfresh j (List.mem_cons_self j rest) hk.symm)

theorem payload_fold_get (target_id new_qty : Int) :
    ∀ (items : List CartLine) (acc : List (String × String) × List String) (item : CartLine),
      item ∈ items →
      (items.map (fun i => "itemquantity" ++ toString i.cartItemId)).Nodup →
      dictGet (items.foldl (fun (acc : List (String × String) × List String) item =>
        (dictInsert acc.1 ("itemquantity" ++ toString item.cartItemId)
          (toString (if item.cartItemId = target_id then new_qty else item.quantity)),
         acc.2 ++ [toString item.cartItemId])) acc).1
          ("itemquantity" ++ toString item.cartItemId)
        = some (toString (if item.cartItemId = target_id then new_qty else item.quantity)) := by
  intro items
  induction items with
  | nil => intro acc item h _; cases h
  | cons j rest ih =>
    intro acc item hmem hnd
    simp only [List.map_cons, List.nodup_cons] at hnd
    rcases List.mem_cons.mp hmem with rfl | hmem2
    · simp only [List.foldl_cons]
      rw [payload_fold_get_preserve target_id new_qty rest _ _
        (fun i hi hk => hnd.1 (by rw [← hk]; exact List.mem_map_of_mem _ hi))]
      exact dictGet_insert_self _ _ _
    · simp only [List.foldl_cons]
      exact ih _ item hmem2 hnd.2

theorem payload_fold_ids (target_id new_qty : Int) :
    ∀ (items : List CartLine) (acc : List (String × String) × List String),
      (items.foldl (fun (acc : List (String × String) × List String) item =>
        (dictInsert acc.1 ("itemquantity" ++ toString item.cartItemId)
          (toString (if item.cartItemId = target_id then new_qty else item.quantity)),
         acc.2 ++ [toString item.cartItemId])) acc).2
        = acc.2 ++ items.map (fun i => toString i.cartItemId) := by
  intro items
  induction items with
  | nil => intro acc; simp
  | cons j rest ih =>
    intro acc
    simp only [List.foldl_cons, List.map_cons]
    rw [ih]
    simp

/-- C6: the replacement payload submitted by a single-line cart update covers
every existing cart line (given the cart well-formedness invariant that line
ids render to distinct keys): the targeted line maps to the new quantity,
every other line maps to its current quantity, and the id list field carries
every existing line id. -/
theorem C6_cart_update_covers_all_lines (cart_items : List CartLine) (target_id new_qty : Int)
    (hnd : (cart_items.map (fun i => "itemquantity" ++ toString i.cartItemId)).Nodup) :
    (∀ item ∈ cart_items,
      dictGet (build_updatecart_payload cart_items target_id new_qty)
          ("itemquantity" ++ toString item.cartItemId)
        = some (toString (if item.cartItemId = target_id then new_qty else item.quantity)))
    ∧ dictGet (build_updatecart_payload cart_items target_id new_qty) "updatecartitemids"
        = some (String.intercalate "," (cart_items.map (fun i => toString i.cartItemId))) := by
  constructor
  · intro item hmem
    unfold build_updatecart_payload
    rw [dictGet_insert_ne _ _ _ _ (itemquantity_key_ne_control (toString item.cartItemId)).2,
        dictGet_insert_ne _ _ _ _ (itemquantity_key_ne_control (toString item.cartItemId)).1]
    exact payload_fold_get target_id new_qty cart_items ([], []) item hmem hnd
  · unfold build_updatecart_payload
    have hne : "updatecartitemids" ≠ "removefromcart" := by decide
    rw [dictGet_insert_ne _ _ _ _ hne, dictGet_insert_self]
    rw [payload_fold_ids target_id new_qty cart_items ([], [])]
    simp

/-- C6 witness: cart lines A=11 qty 2 and B=12 qty 5, updating A to 3: the
payload carries A mapped to 3, B mapped to 5 and both ids. -/
theorem C6_cart_update_covers_all_lines_witness :
    dictGet (build_updatecart_payload [⟨11, 2⟩, ⟨12, 5⟩] 11 3) "itemquantity11" = some "3"
    ∧ dictGet (build_updatecart_payload [⟨11, 2⟩, ⟨12, 5⟩] 11 3) "itemquantity12" = some "5"
    ∧ dictGet (build_updatecart_payload [⟨11, 2⟩, ⟨12, 5⟩] 11 3) "updatecartitemids"
        = some "11,12" := by
  have h := C6_cart_update_covers_all_lines [⟨11, 2⟩, ⟨12, 5⟩] 11 3 (by decide)
  refine ⟨?_, ?_, ?_⟩
  · have := h.1 ⟨11, 2⟩ (by decide)
    simpa using this
  · have := h.1 ⟨12, 5⟩ (by decide)
    simpa using this
  · have := h.2
    simpa using this

/-- C10: a cart-update request applies only the first entry of its items
list (the payload depends on the first entry alone, so later entries are
silently ignored), and an empty items list yields a server error rather
than a no-op. -/
theorem C10_cart_update_first_item_only (cart_items : List CartLine)
    (target : CartUpdateItem) (rest rest2 : List CartUpdateItem) :
    vf_cart_update cart_items (target :: rest)
      = .ok (build_updatecart_payload cart_items target.cartItemId target.quantity)
    ∧ vf_cart_update cart_items (target :: rest)
      = vf_cart_update cart_items (target :: rest2)
    ∧ vf_cart_update cart_items [] = .error () := by
  exact ⟨rfl, rfl, rfl⟩

/-! ## RMA creation (`vf_create_rma`, app.py lines 782-927)

The handler is embedded from the point where the frontend order document is
available; upstream reads become `Except` inputs and the per-shipment item
fetch becomes the function `getItems`.  The second component of the result
records whether the upstream ReturnRequest/Create call was attempted. -/

structure FrontShipmentRef where
  id : Option Int
  deriving DecidableEq, Repr

structure ShipmentItemRec where
  order_item_id : Option Int
  quantity : Option Nat
  deriving DecidableEq, Repr

structure FrontOrderData where
  id : Option Int
  items : List FrontOrderItem
  shipments : List FrontShipmentRef
  deriving DecidableEq, Repr

/-- Python truthiness of an optional integer: `None` and `0` are falsy. -/
def truthyId : Option Int → Option Int
  | none => none
  | some v => if v = 0 then none else some v

def shipped_qty_for (shipments : List FrontShipmentRef)
    (getItems : Int → List ShipmentItemRec) (oid : Int) : Nat :=
  shipments.foldl (fun acc s =>
    match truthyId s.id with
    | none => acc
    | some sid =>
      (getItems sid).foldl (fun acc2 si =>
        if si.order_item_id = some oid then acc2 + si.quantity.getD 0 else acc2) acc) 0

inductive RmaErr where
  | orderIdMissing     -- HTTP 500 "Order ID not found"
  | upstream           -- backend order fetch failed
  | customerIdMissing  -- HTTP 500 "Customer ID not found"
  | itemNotFound       -- HTTP 404 "Order item not found"
  | invalidQuantity    -- HTTP 400 "Invalid return quantity"
  | exceedsShipped     -- HTTP 400 "Return quantity exceeds shipped quantity"
  | createFailed       -- ReturnRequest/Create failed
  | rmaIdMissing       -- HTTP 500 "RMA ID not returned from Create"
  | updateFailed       -- ReturnRequest/Update failed
  deriving DecidableEq, Repr

def vf_create_rma (order_data : FrontOrderData) (backendResp : Except Unit (Option Int))
    (getItems : Int → List ShipmentItemRec) (orderItemId rqty : Int)
    (createResp : Except Unit (Option Int)) (updateResp : Except Unit Unit) :
    Except RmaErr Int × Bool :=
  match truthyId order_data.id with
  | none => (.error .orderIdMissing, false)
  | some _ =>
    match backendResp with
    | .error _ => (.error .upstream, false)
    | .ok cid =>
      match truthyId cid with
      | none => (.error .customerIdMissing, false)
      | some _ =>
        match order_data.items.find? (fun i => i.id = some orderItemId) with
        | none => (.error .itemNotFound, false)
        | some target =>
          let ordered_qty := target.quantity
          if rqty ≤ 0 ∨ (ordered_qty : Int) < rqty then (.error .invalidQuantity, false)
          else
            let shipped_qty := shipped_qty_for order_data.shipments getItems orderItemId
            if (shipped_qty : Int) < rqty then (.error .exceedsShipped, false)
            else
              match createResp with
              | .error _ => (.error .createFailed, true)
              | .ok rid =>
                match truthyId rid with
                | none => (.error .rmaIdMissing, true)
                | some rmaId =>
                  match updateResp with
                  | .error _ => (.error .updateFailed, true)
                  | .ok _ => (.ok rmaId, true)

/-- C7: once the order, customer and target line are resolved, a requested
quantity that is zero, negative, or above the ordered quantity fails with the
invalid-quantity error, and an otherwise valid quantity above the shipped
quantity fails with the exceeds-shipped error; in both cases the upstream
create call is never attempted (flag false). -/
theorem C7_rma_quantity_validation (order_data : FrontOrderData)
    (cid : Option Int) (getItems : Int → List ShipmentItemRec) (orderItemId rqty : Int)
    (createResp : Except Unit (Option Int)) (updateResp : Except Unit Unit)
    (oidv cidv : Int) (target : FrontOrderItem)
    (hoid : truthyId order_data.id = some oidv)
    (hcid : truthyId cid = some cidv)
    (htarget : order_data.items.find? (fun i => i.id = some orderItemId) = some target) :
    ((rqty ≤ 0 ∨ (target.quantity : Int) < rqty) →
      vf_create_rma order_data (.ok cid) getItems orderItemId rqty createResp updateResp
        = (.error .invalidQuantity, false))
    ∧ (0 < rqty → rqty ≤ (target.quantity : Int) →
      (shipped_qty_for order_data.shipments getItems orderItemId : Int) < rqty →
      vf_create_rma order_data (.ok cid) getItems orderItemId rqty createResp updateResp
        = (.error .exceedsShipped, false)) := by
  constructor
  · intro hbad
    simp [vf_create_rma, hoid, hcid, htarget, hbad]
  · intro hpos hle hship
    have hvalid : ¬ (rqty ≤ 0 ∨ (target.quantity : Int) < rqty) := by
      push_neg
      exact ⟨hpos, hle⟩
    simp [vf_create_rma, hoid, hcid, htarget, hvalid, hship]

/-- C7 witness: an order with line 4 (ordered 10, shipped 3): requesting 0
fails with invalid quantity and requesting 5 fails with exceeds shipped, with
no create attempt in either case. -/
theorem C7_rma_quantity_validation_witness :
    vf_create_rma ⟨some 9, [⟨some 4, 10⟩], [⟨some 1⟩]⟩ (.ok (some 77))
        (fun _ => [⟨some 4, some 3⟩]) 4 0 (.ok (some 5)) (.ok ())
      = (.error .invalidQuantity, false)
    ∧ vf_create_rma ⟨some 9, [⟨some 4, 10⟩], [⟨some 1⟩]⟩ (.ok (some 77))
        (fun _ => [⟨some 4, some 3⟩]) 4 5 (.ok (some 5)) (.ok ())
      = (.error .exceedsShipped, false) := by
  constructor
  · exact (C7_rma_quantity_validation ⟨some 9, [⟨some 4, 10⟩], [⟨some 1⟩]⟩ (some 77)
      (fun _ => [⟨some 4, some 3⟩]) 4 0 (.ok (some 5)) (.ok ()) 9 77 ⟨some 4, 10⟩
      (by decide) (by decide) (by decide)).1 (by norm_num)
  · refine (C7_rma_quantity_validation ⟨some 9, [⟨some 4, 10⟩], [⟨some 1⟩]⟩ (some 77)
      (fun _ => [⟨some 4, some 3⟩]) 4 5 (.ok (some 5)) (.ok ()) 9 77 ⟨some 4, 10⟩
      (by decide) (by decide) (by decide)).2 (by norm_num) (by norm_num) ?_
    have hq : shipped_qty_for [⟨some 1⟩] (fun _ => [⟨some 4, some 3⟩]) 4 = 3 := rfl
    rw [hq]
    norm_num

/-! ## Upstream JSON clients (`nc_post_json`, app.py lines 151-183, and
`nc_get_json`, lines 186-207)

An HTTP response is its status, raw body, and the outcome of `r.json()`
(`none` models a `ValueError`).  `nc_post_json` treats an empty or
unparseable success body as `{}`; `nc_get_json` calls `r.json()`
unguarded, so a parse failure propagates. -/

inductive Jsonv where
  | null
  | bool (b : Bool)
  | num (q : ℚ)
  | str (s : String)
  | arr (elems : List Jsonv)
  | obj (fields : List (String × Jsonv))

structure HttpResp where
  status : Nat
  content : String
  json : Option Jsonv

inductive ClientErr where
  | upstream   -- HTTP 502 with status, url and body
  | parse      -- uncaught ValueError from r.json()
  deriving DecidableEq, Repr

def nc_post_json (r : HttpResp) : Except ClientErr Jsonv :=
  if 400 ≤ r.status then .error .upstream
  else if r.content = "" then .ok (.obj [])
  else
    match r.json with
    | some j => .ok j
    | none => .ok (.obj [])

def nc_get_json (r : HttpResp) : Except ClientErr Jsonv :=
  if 400 ≤ r.status then .error .upstream
  else
    match r.json with
    | some j => .ok j
    | none => .error .parse

/-- C8 counterexample: a GET response with success status and an unparseable
body is a propagated parse failure, not an empty object. -/
theorem C8_counterexample :
    nc_get_json ⟨200, "not json", none⟩ = .error .parse
    ∧ nc_get_json ⟨200, "not json", none⟩ ≠ .ok (.obj []) := by
  constructor
  · rfl
  · intro h
    rw [show nc_get_json ⟨200, "not json", none⟩ = .error .parse from rfl] at h
    exact Except.noConfusion h

/-- C8 (amended): on a success status, the POST client yields an empty object
for an empty or unparseable body, while the GET client returns the parsed
value when parsing succeeds and propagates a parse failure otherwise. -/
theorem C8_empty_body_handling (r : HttpResp) (hok : r.status < 400) :
    ((r.content = "" ∨ r.json = none) → nc_post_json r = .ok (.obj []))
    ∧ (∀ j, r.json = some j → nc_get_json r = .ok j)
    ∧ (r.json = none → nc_get_json r = .error .parse) := by
  have hlt : ¬ 400 ≤ r.status := not_le.mpr hok
  refine ⟨?_, ?_, ?_⟩
  · rintro (hc | hj)
    · simp [nc_post_json, hlt, hc]
    · by_cases hc : r.content = ""
      · simp [nc_post_json, hlt, hc]
      · simp [nc_post_json, hlt, hc, hj]
  · intro j hj
    simp [nc_get_json, hlt, hj]
  · intro hj
    simp [nc_get_json, hlt, hj]

/-- C8 witness: concrete empty-body POST, unparseable POST, parsed GET and
unparseable GET responses with success status. -/
theorem C8_empty_body_handling_witness :
    nc_post_json ⟨204, "", none⟩ = .ok (.obj [])
    ∧ nc_post_json ⟨200, "garbage", none⟩ = .ok (.obj [])
    ∧ nc_get_json ⟨200, "true", some (.bool true)⟩ = .ok (.bool true)
    ∧ nc_get_json ⟨200, "garbage", none⟩ = .error .parse := by
  refine ⟨?_, ?_, ?_, ?_⟩
  · exact (C8_empty_body_handling ⟨204, "", none⟩ (by norm_num)).1 (Or.inl rfl)
  · exact (C8_empty_body_handling ⟨200, "garbage", none⟩ (by norm_num)).1 (Or.inr rfl)
  · exact (C8_empty_body_handling ⟨200, "true", some (.bool true)⟩ (by norm_num)).2.1
      (.bool true) rfl
  · exact (C8_empty_body_handling ⟨200, "garbage", none⟩ (by norm_num)).2.2 rfl

end Gateway
